import Mathlib

/-!
Verification of the smart daily planner core (src/app.py).

Shallow embedding of the priority scorer and the CSV-backed record store of
the task/event planner. Timestamps are modelled as rational numbers of
seconds, all floating-point arithmetic of the source as exact rational
arithmetic, and the persisted CSV file at the level of parsed cell values.
-/

namespace TaskApp

/-- Models Python `round(x, 2)`: round to two decimal places.
Python rounds exact halves to even; this model rounds halves up. The two
agree everywhere except when `100 * x` is an exact half-integer, and no
property below depends on the tie direction. -/
def round2 (x : ℚ) : ℚ := ((round (x * 100) : ℤ) : ℚ) / 100

/-- The urgency term of `calculate_priority_score` (src/app.py lines 43-46):
1000 once the deadline has passed, otherwise `100 / max(time_until_deadline, 1)`.
`time_until_deadline` is in hours. -/
def urgency_score (time_until_deadline : ℚ) : ℚ :=
  if time_until_deadline ≤ 0 then 1000 else 100 / max time_until_deadline 1

/-- The efficiency term of `calculate_priority_score` (src/app.py line 48):
`50 / max(duration / 60, 0.5)`, with `duration` in minutes. -/
def efficiency_score (duration : ℚ) : ℚ :=
  50 / max (duration / 60) (1 / 2)

/-- Function `calculate_priority_score` (src/app.py lines 39-55). The source reads
`now` from the wall clock inside the function; following the spec's contract
it is an explicit argument here. `deadline` and `now` are timestamps in
seconds; the source divides their difference by 3600 to get hours. -/
def calculate_priority_score (deadline duration now : ℚ) : ℚ :=
  let time_until_deadline := (deadline - now) / 3600
  round2 (urgency_score time_until_deadline * (7 / 10) +
    efficiency_score duration * (3 / 10))

/-- Division as Python evaluates it: `a / b` raises `ZeroDivisionError`
when `b = 0`. Returns `none` exactly in the raising case. -/
def pydiv (a b : ℚ) : Option ℚ :=
  if b = 0 then none else some (a / b)

/-- Variant of `calculate_priority_score` with every division checked: it returns
`none` if any division of the source would raise `ZeroDivisionError`. -/
def calculate_priority_score_checked (deadline duration now : ℚ) : Option ℚ := do
  let time_until_deadline := (deadline - now) / 3600
  let u ← if time_until_deadline ≤ 0 then some 1000
          else pydiv 100 (max time_until_deadline 1)
  let e ← pydiv 50 (max (duration / 60) (1 / 2))
  some (round2 (u * (7 / 10) + e * (3 / 10)))

/-!
The record store (src/app.py lines 16-37).

The persisted CSV file is modelled at the level of parsed cell values:
timestamps as integer seconds, durations as integers, text as `String`
(the `utf-8-sig` encoding of the source round-trips any Unicode name, so
names are kept as abstract strings). A `completed` cell may be empty —
pandas reads it as NaN — which `Option Bool` models as `none`. -/

/-- An in-memory record: one row of the session DataFrame. `completed` is
`Option Bool` because `add_task_form` stores `None` there for events. -/
structure Task where
  name : String
  duration : ℤ
  deadline : ℤ
  category : String
  completed : Option Bool
  kind : String
deriving DecidableEq

/-- One data row of the persisted CSV file, at parsed-value level. A field
of a column that is absent from the file (see `StoredFile`) carries no
meaning. `completed = none` models an empty cell (NaN after parsing). -/
structure RawRow where
  name : String
  duration : ℤ
  deadline : ℤ
  category : String
  completed : Option Bool
  kind : String
deriving DecidableEq

/-- The persisted CSV file: which of the three optional columns are
present (legacy revisions lack `Type`, `所要時間` or `完了`), plus the data
rows. Columns appear in the canonical order of the persisted format. -/
structure StoredFile where
  hasDuration : Bool
  hasCompleted : Bool
  hasKind : Bool
  rows : List RawRow
deriving DecidableEq

/-- The canonical column shape (src/app.py lines 20 and 33). -/
def canonicalColumns : List String :=
  ["タスク名", "所要時間", "期日", "カテゴリ", "完了", "Type"]

/-- Columns of the DataFrame returned by `load_tasks` for a non-empty
file: the file's own columns, followed by any back-filled columns in the
order the source appends them (`Type`, then `所要時間`, then `完了`,
src/app.py lines 22-27). -/
def loadedColumns (f : StoredFile) : List String :=
  (["タスク名"] ++ (if f.hasDuration then ["所要時間"] else [])
      ++ ["期日", "カテゴリ"]
      ++ (if f.hasCompleted then ["完了"] else [])
      ++ (if f.hasKind then ["Type"] else []))
    ++ (if f.hasKind then [] else ["Type"])
    ++ (if f.hasDuration then [] else ["所要時間"])
    ++ (if f.hasCompleted then [] else ["完了"])

/-- pandas `astype(bool)` on a parsed `completed` cell (src/app.py
line 31): an empty cell is NaN, and `bool(NaN)` is `True`. -/
def boolCast : Option Bool → Bool
  | none => true
  | some b => b

/-- The per-row effect of `load_tasks` on a non-empty file: back-fill
absent columns with the defaults `Type = "Task"`, `所要時間 = 30`,
`完了 = False`, then cast `完了` to boolean (src/app.py lines 21-31). -/
def loadRow (hasDuration hasCompleted hasKind : Bool) (r : RawRow) : Task :=
  { name := r.name
    duration := if hasDuration then r.duration else 30
    deadline := r.deadline
    category := r.category
    completed := some (if hasCompleted then boolCast r.completed else false)
    kind := if hasKind then r.kind else "Task" }

/-- The DataFrame produced by `load_tasks`: its columns and its rows. -/
structure LoadedFrame where
  columns : List String
  rows : List Task
deriving DecidableEq

/-- Function `load_tasks` (src/app.py lines 16-34). `none` models a missing file;
an existing file that parses to zero rows is replaced by the canonical
empty frame; otherwise absent columns are back-filled per `loadRow`. -/
def load_tasks : Option StoredFile → LoadedFrame
  | none => ⟨canonicalColumns, []⟩
  | some f =>
    if f.rows.isEmpty then ⟨canonicalColumns, []⟩
    else ⟨loadedColumns f, f.rows.map (loadRow f.hasDuration f.hasCompleted f.hasKind)⟩

/-- Serialization of one in-memory row by `to_csv`: every field is written
out; `completed = none` becomes an empty cell. -/
def taskToRaw (t : Task) : RawRow :=
  ⟨t.name, t.duration, t.deadline, t.category, t.completed, t.kind⟩

/-- Function `save_tasks` (src/app.py lines 36-37): overwrite the whole persisted
file with the given rows; the session DataFrame carries all six columns,
so all column flags are set. -/
def save_tasks (ts : List Task) : StoredFile :=
  ⟨true, true, true, ts.map taskToRaw⟩

/-- A persisted file is well formed when every column of the canonical
shape is present and every `completed` cell holds a boolean literal
(§6 of the persisted format: `completed` is a boolean text literal). -/
def WellFormed (f : StoredFile) : Prop :=
  f.hasDuration = true ∧ f.hasCompleted = true ∧ f.hasKind = true ∧
    ∀ r ∈ f.rows, r.completed ≠ none

/-- The two item types offered by the add form (src/app.py line 68). -/
inductive ItemType
  | task
  | event
deriving DecidableEq

/-- The state the add form acts on: the in-memory session rows and the
persisted file (`none` when no file has been written yet). -/
structure FormState where
  tasks : List Task
  persisted : Option StoredFile
deriving DecidableEq

/-- Outcome of submitting the add form: the new state and whether the
error message was shown. -/
structure FormResult where
  state : FormState
  errorShown : Bool
deriving DecidableEq

/-- Python `str.strip()`: remove whitespace from both ends. -/
def pyStrip (s : String) : String :=
  ⟨((s.data.dropWhile Char.isWhitespace).reverse.dropWhile
      Char.isWhitespace).reverse⟩

/-- The submit branch of the add form (src/app.py lines 85-104): a name
that is empty after stripping is rejected with an error; otherwise the new
record is appended (duration forced to 0 and `completed` to `None` for
events) and the whole set is saved. -/
def add_task_form (s : FormState) (itemType : ItemType) (name : String)
    (duration deadline : ℤ) (category : String) : FormResult :=
  if pyStrip name = "" then ⟨s, true⟩
  else
    let newTask : Task :=
      { name := name
        duration := if itemType = ItemType.task then duration else 0
        deadline := deadline
        category := category
        completed := if itemType = ItemType.task then some false else none
        kind := if itemType = ItemType.task then "Task" else "Event" }
    let tasks' := s.tasks ++ [newTask]
    ⟨⟨tasks', some (save_tasks tasks')⟩, false⟩

/-- pandas `DataFrame.drop(label)` on the session DataFrame, whose rows
are (index label, record) pairs: remove every row carrying that label. -/
def dropLabel (df : List (ℕ × Task)) (lbl : ℕ) : List (ℕ × Task) :=
  df.filter (fun p => p.1 != lbl)

/-- pandas `reset_index(drop=True)`: relabel rows 0, 1, 2, … in order. -/
def resetIndex (df : List (ℕ × Task)) : List (ℕ × Task) :=
  (df.map Prod.snd).enum

/-- The delete buttons (src/app.py lines 179, 341, 373, 432):
`df.drop(original_idx).reset_index(drop=True)`. -/
def delete_row (df : List (ℕ × Task)) (lbl : ℕ) : List (ℕ × Task) :=
  resetIndex (dropLabel df lbl)

/-- Rounding to two decimals preserves `≤`. -/
theorem round2_mono {x y : ℚ} (h : x ≤ y) : round2 x ≤ round2 y := by
  unfold round2
  have : round (x * 100) ≤ round (y * 100) := by
    rw [round_eq, round_eq]
    exact Int.floor_le_floor (by linarith)
  have hc : ((round (x * 100) : ℤ) : ℚ) ≤ ((round (y * 100) : ℤ) : ℚ) := by
    exact_mod_cast this
  linarith

/-- The urgency term never increases when the remaining hours grow,
as long as they stay positive. -/
theorem urgency_score_antitone {h1 h2 : ℚ} (hle : h2 ≤ h1) (hpos : 0 < h2) :
    urgency_score h1 ≤ urgency_score h2 := by
  unfold urgency_score
  rw [if_neg (not_le.mpr hpos), if_neg (not_le.mpr (lt_of_lt_of_le hpos hle))]
  exact div_le_div_of_nonneg_left (by norm_num)
    (lt_of_lt_of_le one_pos (le_max_right _ _)) (max_le_max hle le_rfl)

/-- The efficiency term never increases when the duration grows. -/
theorem efficiency_score_antitone {d1 d2 : ℚ} (hle : d2 ≤ d1) :
    efficiency_score d1 ≤ efficiency_score d2 := by
  unfold efficiency_score
  exact div_le_div_of_nonneg_left (by norm_num)
    (lt_of_lt_of_le (by norm_num) (le_max_right _ _))
    (max_le_max (by linarith) le_rfl)

/-- C1: for every deadline, duration and now, `calculate_priority_score`
returns `round(urgency * 0.7 + efficiency * 0.3, 2)` where
`hours_remaining = (deadline - now)` in hours, `urgency = 1000` when
`hours_remaining ≤ 0` and `100 / max(hours_remaining, 1)` otherwise, and
`efficiency = 50 / max(duration / 60, 0.5)`; rounding to two decimals is
applied exactly once, on the combined total. -/
theorem score_eq_spec_formula (deadline duration_minutes now : ℚ) :
    calculate_priority_score deadline duration_minutes now =
      round2 ((if (deadline - now) / 3600 ≤ 0 then (1000 : ℚ)
                else 100 / max ((deadline - now) / 3600) 1) * (7 / 10) +
              (50 / max (duration_minutes / 60) (1 / 2)) * (3 / 10)) := rfl

/-- C2 as stated is false: the duration 30 lies in the interval (0, 30] yet
the efficiency term at 30 minutes is not 50 (it is 100). -/
theorem efficiency_floor_not_fifty :
    (0 : ℚ) < 30 ∧ (30 : ℚ) ≤ 30 ∧ efficiency_score 30 ≠ 50 := by
  refine ⟨by norm_num, le_refl _, ?_⟩
  norm_num [efficiency_score]

/-- C2 amended: for every duration in (0, 30], the efficiency term computed
by the scorer is exactly 100. -/
theorem efficiency_floor_value (d : ℚ) (_h0 : 0 < d) (h30 : d ≤ 30) :
    efficiency_score d = 100 := by
  unfold efficiency_score
  rw [max_eq_right (by linarith : d / 60 ≤ 1 / 2)]
  norm_num

/-- Witness for the amended C2 at duration 15. -/
theorem efficiency_floor_value_witness :
    (0 : ℚ) < 15 ∧ (15 : ℚ) ≤ 30 ∧ efficiency_score 15 = 100 :=
  ⟨by norm_num, by norm_num, efficiency_floor_value 15 (by norm_num) (by norm_num)⟩

/-- C3: the total score is monotone in both inputs. For a fixed duration
and now, if `h1 ≥ h2 > 0` then the score with `h2` hours remaining is at
least the score with `h1` hours remaining; for a fixed deadline and now,
if `d1 ≥ d2 > 0` minutes then the score at duration `d2` is at least the
score at duration `d1`. -/
theorem score_monotone :
    (∀ (dur now h1 h2 : ℚ), h2 ≤ h1 → 0 < h2 →
      calculate_priority_score (now + 3600 * h1) dur now ≤
        calculate_priority_score (now + 3600 * h2) dur now) ∧
    (∀ (deadline now d1 d2 : ℚ), d2 ≤ d1 → 0 < d2 →
      calculate_priority_score deadline d1 now ≤
        calculate_priority_score deadline d2 now) := by
  constructor
  · intro dur now h1 h2 hle hpos
    unfold calculate_priority_score
    have e1 : (now + 3600 * h1 - now) / 3600 = h1 := by ring
    have e2 : (now + 3600 * h2 - now) / 3600 = h2 := by ring
    rw [e1, e2]
    apply round2_mono
    have := urgency_score_antitone hle hpos
    linarith
  · intro deadline now d1 d2 hle _
    unfold calculate_priority_score
    apply round2_mono
    have := efficiency_score_antitone hle
    linarith

/-- Witness for C3 at concrete inputs: 2 hours vs 1 hour remaining, and
120 minutes vs 30 minutes duration. -/
theorem score_monotone_witness :
    calculate_priority_score (0 + 3600 * 2) 60 0 ≤
        calculate_priority_score (0 + 3600 * 1) 60 0 ∧
      calculate_priority_score 3600 120 0 ≤ calculate_priority_score 3600 30 0 :=
  ⟨score_monotone.1 60 0 2 1 (by norm_num) (by norm_num),
   score_monotone.2 3600 0 120 30 (by norm_num) (by norm_num)⟩

/-- C6: the scorer is total. Checking every division of the source for a
zero divisor, no division ever raises: the checked scorer always returns
`some` of the unchecked score, for every finite rational input, including
zero and negative durations and deadlines in the past. -/
theorem score_never_raises (deadline duration now : ℚ) :
    calculate_priority_score_checked deadline duration now =
      some (calculate_priority_score deadline duration now) := by
  unfold calculate_priority_score_checked calculate_priority_score pydiv
  unfold urgency_score efficiency_score
  have h1 : max ((deadline - now) / 3600) 1 ≠ 0 :=
    ne_of_gt (lt_of_lt_of_le one_pos (le_max_right _ _))
  have h2 : max (duration / 60) ((2 : ℚ)⁻¹) ≠ 0 :=
    ne_of_gt (lt_of_lt_of_le (by norm_num) (le_max_right _ _))
  by_cases hd : (deadline - now) / 3600 ≤ 0 <;>
    simp [hd, h1, h2, Option.bind]

/-- C7: when no persisted file exists, loading does not fail and returns
the empty record set with the canonical column shape
(name, duration, deadline, category, completed, kind). -/
theorem load_missing_file_empty_canonical :
    load_tasks none =
      ⟨["タスク名", "所要時間", "期日", "カテゴリ", "完了", "Type"], []⟩ := rfl

/-- C5: loading a file that lacks the `Type` column tags every record
`Task`; lacking the `完了` column yields `completed = false` for every
row; lacking the `所要時間` column yields duration 30 for every row.
`load_tasks` is a total function, so no such load fails. -/
theorem load_backfills_missing_columns (f : StoredFile) (t : Task)
    (ht : t ∈ (load_tasks (some f)).rows) :
    (f.hasKind = false → t.kind = "Task") ∧
      (f.hasCompleted = false → t.completed = some false) ∧
      (f.hasDuration = false → t.duration = 30) := by
  simp only [load_tasks] at ht
  by_cases he : f.rows.isEmpty
  · simp [he] at ht
  · rw [if_neg (by simp [he])] at ht
    simp only [List.mem_map] at ht
    obtain ⟨r, _, rfl⟩ := ht
    refine ⟨fun h => ?_, fun h => ?_, fun h => ?_⟩ <;> simp [loadRow, h]

/-- A legacy persisted file lacking all three optional columns, with one
data row. -/
def legacyFile : StoredFile :=
  ⟨false, false, false, [⟨"レポート", 0, 1000, "学習", none, ""⟩]⟩

/-- The row `load_tasks` produces from `legacyFile`. -/
def legacyLoaded : Task := ⟨"レポート", 30, 1000, "学習", some false, "Task"⟩

/-- Witness for C5 on `legacyFile`. -/
theorem load_backfills_missing_columns_witness :
    legacyLoaded ∈ (load_tasks (some legacyFile)).rows ∧
      legacyLoaded.kind = "Task" ∧ legacyLoaded.completed = some false ∧
      legacyLoaded.duration = 30 := by
  have hm : legacyLoaded ∈ (load_tasks (some legacyFile)).rows := by
    simp [load_tasks, legacyFile, legacyLoaded, loadRow, boolCast]
  have h := load_backfills_missing_columns legacyFile legacyLoaded hm
  exact ⟨hm, h.1 rfl, h.2.1 rfl, h.2.2 rfl⟩

/-- C8: a create request whose name is empty after stripping is rejected:
the error message is shown, the in-memory set is unchanged and the
persisted state is untouched (save is not called). -/
theorem add_rejects_blank_name (s : FormState) (itemType : ItemType)
    (name : String) (duration deadline : ℤ) (category : String)
    (h : pyStrip name = "") :
    add_task_form s itemType name duration deadline category = ⟨s, true⟩ := by
  unfold add_task_form
  rw [if_pos h]

/-- Witness for C8: a whitespace-only name on an otherwise valid request. -/
theorem add_rejects_blank_name_witness :
    pyStrip "   " = "" ∧
      add_task_form ⟨[], none⟩ ItemType.task "   " 30 0 "仕事" =
        ⟨⟨[], none⟩, true⟩ :=
  ⟨rfl, add_rejects_blank_name ⟨[], none⟩ ItemType.task "   " 30 0 "仕事" rfl⟩

/-- Serializing a loaded row restores the raw row exactly whenever its
`completed` cell held a boolean literal. -/
theorem taskToRaw_loadRow (r : RawRow) (h : r.completed ≠ none) :
    taskToRaw (loadRow true true true r) = r := by
  obtain ⟨nm, du, dl, cat, cp, kd⟩ := r
  cases cp with
  | none => exact absurd rfl h
  | some b => rfl

/-- Row-wise version of the C4 round trip. -/
theorem map_taskToRaw_loadRow (rows : List RawRow)
    (h : ∀ r ∈ rows, r.completed ≠ none) :
    rows.map (fun r => taskToRaw (loadRow true true true r)) = rows := by
  induction rows with
  | nil => rfl
  | cons r l ih =>
    simp only [List.map_cons, List.cons.injEq]
    exact ⟨taskToRaw_loadRow r (h r (List.mem_cons_self r l)),
      ih (fun q hq => h q (List.mem_cons_of_mem _ hq))⟩

/-- C4: for a non-empty well-formed persisted file, loading and saving the
loaded set reproduces the persisted content exactly: the same records with
the same field values in the same order, every column (and hence the field
order) preserved, names kept losslessly. -/
theorem save_load_roundtrip (f : StoredFile) (hwf : WellFormed f)
    (hne : f.rows ≠ []) :
    save_tasks (load_tasks (some f)).rows = f := by
  obtain ⟨hd, hc, hk, hcomp⟩ := hwf
  obtain ⟨hasDuration, hasCompleted, hasKind, rows⟩ := f
  simp only at hd hc hk hcomp hne
  subst hd; subst hc; subst hk
  have he : rows.isEmpty = false := by
    cases rows with
    | nil => exact absurd rfl hne
    | cons a l => rfl
  simp only [load_tasks, save_tasks, he, Bool.false_eq_true, if_false,
    List.map_map, StoredFile.mk.injEq, true_and]
  exact map_taskToRaw_loadRow rows hcomp

/-- A well-formed one-row persisted file. -/
def sampleFile : StoredFile :=
  ⟨true, true, true, [⟨"買い物", 30, 1000, "プライベート", some false, "Task"⟩]⟩

/-- Witness for C4 on `sampleFile`. -/
theorem save_load_roundtrip_witness :
    WellFormed sampleFile ∧ sampleFile.rows ≠ [] ∧
      save_tasks (load_tasks (some sampleFile)).rows = sampleFile := by
  have hwf : WellFormed sampleFile := by
    refine ⟨rfl, rfl, rfl, ?_⟩
    intro r hr
    simp only [sampleFile, List.mem_singleton] at hr
    subst hr
    simp
  have hne : sampleFile.rows ≠ [] := by simp [sampleFile]
  exact ⟨hwf, hne, save_load_roundtrip sampleFile hwf hne⟩

/-- C9: a record whose `completed` field is `None` (an event as the add
form creates it) comes back from a save/load round trip with
`completed = true`: the empty persisted cell reads as NaN and the boolean
cast of the loader turns it into `True`. All other fields survive. -/
theorem event_completed_true_after_roundtrip (ts : List Task) (i : ℕ)
    (t : Task) (hti : ts[i]? = some t) (_hk : t.kind = "Event")
    (hc : t.completed = none) :
    (load_tasks (some (save_tasks ts))).rows[i]? =
      some { name := t.name, duration := t.duration, deadline := t.deadline,
             category := t.category, completed := some true, kind := t.kind } := by
  have hlen : i < ts.length := by
    by_contra hge
    rw [List.getElem?_eq_none_iff.mpr (le_of_not_lt hge)] at hti
    exact Option.noConfusion hti
  have hne : (ts.map taskToRaw).isEmpty = false := by
    cases ts with
    | nil => simp at hlen
    | cons a l => rfl
  simp only [save_tasks, load_tasks, hne, Bool.false_eq_true, if_false,
    List.map_map, List.getElem?_map, hti, Option.map_some']
  obtain ⟨nm, du, dl, cat, cp, kd⟩ := t
  simp only at hc
  subst hc
  rfl

/-- An event record as the add form creates it: `completed = None`. -/
def sampleEvent : Task := ⟨"会議", 0, 500, "仕事", none, "Event"⟩

/-- Witness for C9 on a one-element record set. -/
theorem event_completed_true_witness :
    [sampleEvent][0]? = some sampleEvent ∧ sampleEvent.completed = none ∧
      (load_tasks (some (save_tasks [sampleEvent]))).rows[0]? =
        some ⟨"会議", 0, 500, "仕事", some true, "Event"⟩ :=
  ⟨rfl, rfl,
    event_completed_true_after_roundtrip [sampleEvent] 0 sampleEvent rfl rfl rfl⟩

/-- Dropping a label that no row carries leaves the frame unchanged. -/
theorem dropLabel_of_forall_ne (l : List (ℕ × Task)) (i : ℕ)
    (h : ∀ q ∈ l, q.1 ≠ i) : dropLabel l i = l := by
  unfold dropLabel
  refine List.filter_eq_self.mpr ?_
  intro a ha
  exact bne_iff_ne.mpr (h a ha)

/-- On a frame whose labels are the consecutive block `s, s+1, …`,
dropping label `i` removes exactly the row at position `i - s`. -/
theorem dropLabel_consecutive (df : List (ℕ × Task)) (s i : ℕ)
    (hlab : df.map Prod.fst = List.range' s df.length)
    (hsi : s ≤ i) (hilt : i < s + df.length) :
    (dropLabel df i).map Prod.snd = (df.map Prod.snd).eraseIdx (i - s) := by
  induction df generalizing s with
  | nil =>
    exfalso
    simp only [List.length_nil, Nat.add_zero] at hilt
    omega
  | cons p l ih =>
    rw [List.length_cons, List.range'_succ, List.map_cons,
      List.cons.injEq] at hlab
    obtain ⟨hp, hl⟩ := hlab
    by_cases hi : i = s
    · subst hi
      have hkeep : dropLabel l i = l := by
        refine dropLabel_of_forall_ne l i (fun q hq => ?_)
        have hm : q.1 ∈ l.map Prod.fst := List.mem_map_of_mem Prod.fst hq
        rw [hl] at hm
        have := (List.mem_range'_1.mp hm).1
        omega
      have hhead : (p.1 != i) = false := by
        simp [hp]
      simp only [dropLabel, List.filter_cons, hhead, Bool.false_eq_true,
        if_false, Nat.sub_self, List.map_cons, List.eraseIdx_cons_zero]
      exact congrArg (List.map Prod.snd) hkeep
    · have hsi' : s + 1 ≤ i := by omega
      have hhead : (p.1 != i) = true := by
        simp [hp]
        omega
      have htail := ih (s + 1) hl hsi' (by
        rw [List.length_cons] at hilt
        omega)
      have hsub : i - s = (i - (s + 1)) + 1 := by omega
      simp only [dropLabel, List.filter_cons, hhead, if_true, List.map_cons,
        hsub, List.eraseIdx_cons_succ]
      exact congrArg _ htail

/-- C10: deleting by label on the session frame, whose labels are the
consecutive positions `0, 1, …`, removes exactly the record at position
`i`: the remaining records keep their values and relative order
(`eraseIdx`), and the labels are re-derived as `0, 1, …` afterwards. -/
theorem delete_removes_exactly_position (df : List (ℕ × Task)) (i : ℕ)
    (hlab : df.map Prod.fst = List.range df.length) (hi : i < df.length) :
    (delete_row df i).map Prod.snd = (df.map Prod.snd).eraseIdx i ∧
      (delete_row df i).map Prod.fst = List.range (df.length - 1) ∧
      (delete_row df i).length = df.length - 1 := by
  have hlab' : df.map Prod.fst = List.range' 0 df.length :=
    hlab.trans (List.range_eq_range' _)
  have hdrop : (dropLabel df i).map Prod.snd = (df.map Prod.snd).eraseIdx i := by
    have h := dropLabel_consecutive df 0 i hlab' (Nat.zero_le i)
      (by omega)
    simpa using h
  have hlen2 : ((dropLabel df i).map Prod.snd).length = df.length - 1 := by
    rw [hdrop, List.length_eraseIdx_of_lt (by rw [List.length_map]; exact hi),
      List.length_map]
  refine ⟨?_, ?_, ?_⟩
  · unfold delete_row resetIndex
    rw [List.enum_map_snd]
    exact hdrop
  · unfold delete_row resetIndex
    rw [List.enum_map_fst, hlen2]
  · unfold delete_row resetIndex
    rw [List.enum_length, hlen2]

/-- A three-row session frame with consecutive labels. -/
def sampleDf : List (ℕ × Task) :=
  [(0, ⟨"掃除", 20, 100, "健康", some false, "Task"⟩),
   (1, ⟨"会議の準備", 0, 200, "仕事", none, "Event"⟩),
   (2, ⟨"勉強", 60, 300, "学習", some false, "Task"⟩)]

/-- Witness for C10: deleting position 1 of the three-row frame. -/
theorem delete_removes_exactly_position_witness :
    sampleDf.map Prod.fst = List.range sampleDf.length ∧
      1 < sampleDf.length ∧
      ((delete_row sampleDf 1).map Prod.snd = (sampleDf.map Prod.snd).eraseIdx 1 ∧
        (delete_row sampleDf 1).map Prod.fst = List.range (sampleDf.length - 1) ∧
        (delete_row sampleDf 1).length = sampleDf.length - 1) :=
  ⟨rfl, by simp [sampleDf],
    delete_removes_exactly_position sampleDf 1 rfl (by simp [sampleDf])⟩

end TaskApp
